import Mathlib

/-!
Shallow embedding of the CHIP-8 virtual machine from `src/emulator.rs`
(`Emulator`, its public operations and the instruction dispatch in
`Emulator::execute`), together with theorems settling the spec claims.

Machine integers are modelled as `Nat` with explicit reductions:
`% 256` where the Rust code wraps `u8`, `% 65536` where it wraps `u16`,
`% 2 ^ 64` where a `u64` shift could overflow.  A Rust panic (out-of-bounds
array index or slice) is modelled by the `StepOut.panic` result.
-/

namespace RC8

def MEM_SIZE : Nat := 4096

def SPRITE_DATA_START : Nat := 0

def SPRITE_DATA : List Nat := [
  0xF0, 0x90, 0x90, 0x90, 0xF0,
  0x20, 0x60, 0x20, 0x20, 0x70,
  0xF0, 0x10, 0xF0, 0x80, 0xF0,
  0xF0, 0x10, 0xF0, 0x10, 0xF0,
  0x90, 0x90, 0xF0, 0x10, 0x10,
  0xF0, 0x80, 0xF0, 0x10, 0xF0,
  0xF0, 0x80, 0xF0, 0x90, 0xF0,
  0xF0, 0x10, 0x20, 0x40, 0x40,
  0xF0, 0x90, 0xF0, 0x90, 0xF0,
  0xF0, 0x90, 0xF0, 0x10, 0xF0,
  0xF0, 0x90, 0xF0, 0x90, 0x90,
  0xE0, 0x90, 0xE0, 0x90, 0xE0,
  0xF0, 0x80, 0x80, 0x80, 0xF0,
  0xE0, 0x90, 0x90, 0x90, 0xE0,
  0xF0, 0x80, 0xF0, 0x80, 0xF0,
  0xF0, 0x80, 0xF0, 0x80, 0x80]

def ADDR_START : Nat := 0x200

def ADDR_END : Nat := 0xE8F

def MAX_ROM_SIZE : Nat := ADDR_END - ADDR_START + 1

/-- `nibble_h` from `emulator.rs`: `(b >> 4) & 0xF`. -/
def nibble_h (b : Nat) : Nat := Nat.land (b >>> 4) 0xF

/-- `nibble_l` from `emulator.rs`: `b & 0xF`. -/
def nibble_l (b : Nat) : Nat := Nat.land b 0xF

/-- `nnn` from `emulator.rs`: `(((a as u16) << 8) | (b as u16)) & 0xFFF`. -/
def nnn (a b : Nat) : Nat := Nat.land (Nat.lor (a <<< 8) b) 0xFFF

/-- `EmulatorError` from `emulator.rs` (the `Io` variant belongs to rom
loading, which is out of scope of the claims about `execute`). -/
inductive EmulatorError where
  | InvalidReturn (addr : Nat)
  | MachineSubroutine (addr : Nat)
  | InvalidJump (a : Nat) (b : Nat) (addr : Nat)
  | InvalidOpcode (a : Nat) (b : Nat) (addr : Nat)
  deriving DecidableEq, Repr

/-- The `Emulator` state struct from `emulator.rs`.  Arrays are modelled as
functions from `Nat`; the RNG is modelled as an ambient stream `rng`
advanced via `rngIdx` (one byte per `Cxnn` instruction). -/
structure Emulator where
  PC : Nat
  memory : Nat → Nat
  V : Nat → Nat
  I : Nat
  sub_stack : List Nat
  DT : Nat
  ST : Nat
  keys : Nat → Bool
  rng : Nat → Nat
  rngIdx : Nat
  screen : Nat → Nat
  prev_screen : Nat → Nat
  vblank_interrupt : Bool
  last_pressed_key : Option Nat

/-- Point update of a function-modelled array. -/
def upd {α : Type} (f : Nat → α) (i : Nat) (v : α) : Nat → α :=
  fun j => if j = i then v else f j

/-- Result of one `execute` call: `ok`/`err` carry the machine state the
Rust `&mut self` holds on return; `panic` models a Rust index/slice panic. -/
inductive StepOut where
  | ok (s : Emulator)
  | err (e : EmulatorError) (s : Emulator)
  | panic

/-- `u8` wrapping addition (`overflowing_add` value part). -/
def add8 (a b : Nat) : Nat := (a + b) % 256

/-- Carry flag of `u8` `overflowing_add`, as the `u8` the code stores. -/
def carry8 (a b : Nat) : Nat := if 256 ≤ a + b then 1 else 0

/-- `u8` wrapping subtraction (`overflowing_sub` value part). -/
def sub8 (a b : Nat) : Nat := if b ≤ a then a - b else a + 256 - b

/-- `(!borrow) as u8` for `u8` `overflowing_sub`. -/
def noborrow8 (a b : Nat) : Nat := if a < b then 0 else 1

/-- The sprite-byte positioning of the `Dxyn` arm: shift the byte into a
64-bit row mask around the pivot `LIMIT = 64 - 8 = 56`. -/
def shiftSprite (x d : Nat) : Nat :=
  if 56 < x then d >>> (x - 56)
  else if x < 56 then (d <<< (56 - x)) % 2 ^ 64
  else d

/-- The `for offset in 0..n` loop of the `Dxyn` arm, from row offset `off`
with `rem` iterations remaining, carrying the screen and the current VF
value.  `none` models the panic of `self.memory[location]` when
`location ≥ 4096`; the `row ≥ 32` test is Rust's `break`. -/
def drawLoop (mem : Nat → Nat) (iReg x y : Nat) :
    Nat → Nat → (Nat → Nat) → Nat → Option ((Nat → Nat) × Nat)
  | _, 0, screen, vf => some (screen, vf)
  | off, rem + 1, screen, vf =>
    let row := y + off
    if 32 ≤ row then some (screen, vf)
    else if MEM_SIZE ≤ iReg + off then none
    else
      let toDraw := shiftSprite x (mem (iReg + off))
      let result := Nat.xor (screen row) toDraw
      let vf2 := if screen row = Nat.land (screen row) result then vf else 1
      drawLoop mem iReg x y (off + 1) rem (upd screen row result) vf2

/-- The cumulative collision condition of one draw: some drawn row had a
previously-set pixel cleared (`old ≠ old AND new`, i.e. `old AND NOT new`
nonzero).  Recurses in lockstep with `drawLoop`. -/
def anyCleared (mem : Nat → Nat) (iReg x y : Nat) :
    Nat → Nat → (Nat → Nat) → Bool
  | _, 0, _ => false
  | off, rem + 1, screen =>
    let row := y + off
    if 32 ≤ row then false
    else if MEM_SIZE ≤ iReg + off then false
    else
      let toDraw := shiftSprite x (mem (iReg + off))
      let result := Nat.xor (screen row) toDraw
      if screen row = Nat.land (screen row) result then
        anyCleared mem iReg x y (off + 1) rem (upd screen row result)
      else true

/-- The shared tail of every successfully completed instruction:
`self.last_pressed_key = None; Ok(())`. -/
def finishOk (s : Emulator) : StepOut :=
  .ok { s with last_pressed_key := none }

/-- `Emulator::execute` from `emulator.rs`, arm by arm in source order.
The fetch reads `a = memory[PC]` and `b = memory[PC + 1]` (panic when out
of bounds); the pre-increment `PC += 2` of the source appears as the
explicit `PC + 2` (and `PC + 2 + 2` for a skip, `PC + 2 - 2` for a
rollback) in each arm.  Below, `a` stands for `s.memory s.PC` and `b` for
`s.memory (s.PC + 1)`. -/
def execStep (s : Emulator) : StepOut :=
  if MEM_SIZE < s.PC + 2 then .panic
  else if nibble_h (s.memory s.PC) = 0x0 then
    (if s.memory s.PC = 0x00 ∧ s.memory (s.PC + 1) = 0xE0 then
      finishOk { s with PC := s.PC + 2, screen := fun _ => 0 }
    else if s.memory s.PC = 0x00 ∧ s.memory (s.PC + 1) = 0xEE then
      match s.sub_stack with
      | [] => .err (.InvalidReturn (s.PC + 2 - 2)) { s with PC := s.PC + 2 }
      | p :: rest => finishOk { s with PC := p, sub_stack := rest }
    else
      .err (.MachineSubroutine (s.PC + 2)) { s with PC := s.PC + 2 })
  else if nibble_h (s.memory s.PC) = 0x1 then
    finishOk { s with PC := nnn (s.memory s.PC) (s.memory (s.PC + 1)) }
  else if nibble_h (s.memory s.PC) = 0x2 then
    finishOk { s with
      sub_stack := (s.PC + 2) :: s.sub_stack,
      PC := nnn (s.memory s.PC) (s.memory (s.PC + 1)) }
  else if nibble_h (s.memory s.PC) = 0x3 then
    (if s.V (nibble_l (s.memory s.PC)) = s.memory (s.PC + 1) then
      finishOk { s with PC := s.PC + 2 + 2 }
    else finishOk { s with PC := s.PC + 2 })
  else if nibble_h (s.memory s.PC) = 0x4 then
    (if s.V (nibble_l (s.memory s.PC)) ≠ s.memory (s.PC + 1) then
      finishOk { s with PC := s.PC + 2 + 2 }
    else finishOk { s with PC := s.PC + 2 })
  else if nibble_h (s.memory s.PC) = 0x5 then
    (if nibble_l (s.memory (s.PC + 1)) = 0x0 then
      (if s.V (nibble_l (s.memory s.PC)) = s.V (nibble_h (s.memory (s.PC + 1))) then
        finishOk { s with PC := s.PC + 2 + 2 }
       else finishOk { s with PC := s.PC + 2 })
    else
      .err (.InvalidOpcode (s.memory s.PC) (s.memory (s.PC + 1)) (s.PC + 2 - 2))
        { s with PC := s.PC + 2 })
  else if nibble_h (s.memory s.PC) = 0x6 then
    finishOk { s with
      PC := s.PC + 2,
      V := upd s.V (nibble_l (s.memory s.PC)) (s.memory (s.PC + 1)) }
  else if nibble_h (s.memory s.PC) = 0x7 then
    finishOk { s with
      PC := s.PC + 2,
      V := upd s.V (nibble_l (s.memory s.PC))
        (add8 (s.V (nibble_l (s.memory s.PC))) (s.memory (s.PC + 1))) }
  else if nibble_h (s.memory s.PC) = 0x8 then
    (if nibble_l (s.memory (s.PC + 1)) = 0x0 then
      finishOk { s with
        PC := s.PC + 2,
        V := upd s.V (nibble_l (s.memory s.PC)) (s.V (nibble_h (s.memory (s.PC + 1)))) }
    else if nibble_l (s.memory (s.PC + 1)) = 0x1 then
      finishOk { s with
        PC := s.PC + 2,
        V := upd (upd s.V (nibble_l (s.memory s.PC))
          (Nat.lor (s.V (nibble_l (s.memory s.PC))) (s.V (nibble_h (s.memory (s.PC + 1)))))) 0xF 0 }
    else if nibble_l (s.memory (s.PC + 1)) = 0x2 then
      finishOk { s with
        PC := s.PC + 2,
        V := upd (upd s.V (nibble_l (s.memory s.PC))
          (Nat.land (s.V (nibble_l (s.memory s.PC))) (s.V (nibble_h (s.memory (s.PC + 1)))))) 0xF 0 }
    else if nibble_l (s.memory (s.PC + 1)) = 0x3 then
      finishOk { s with
        PC := s.PC + 2,
        V := upd (upd s.V (nibble_l (s.memory s.PC))
          (Nat.xor (s.V (nibble_l (s.memory s.PC))) (s.V (nibble_h (s.memory (s.PC + 1)))))) 0xF 0 }
    else if nibble_l (s.memory (s.PC + 1)) = 0x4 then
      finishOk { s with
        PC := s.PC + 2,
        V := upd (upd s.V (nibble_l (s.memory s.PC))
            (add8 (s.V (nibble_l (s.memory s.PC))) (s.V (nibble_h (s.memory (s.PC + 1)))))) 0xF
          (carry8 (s.V (nibble_l (s.memory s.PC))) (s.V (nibble_h (s.memory (s.PC + 1))))) }
    else if nibble_l (s.memory (s.PC + 1)) = 0x5 then
      finishOk { s with
        PC := s.PC + 2,
        V := upd (upd s.V (nibble_l (s.memory s.PC))
            (sub8 (s.V (nibble_l (s.memory s.PC))) (s.V (nibble_h (s.memory (s.PC + 1)))))) 0xF
          (noborrow8 (s.V (nibble_l (s.memory s.PC))) (s.V (nibble_h (s.memory (s.PC + 1))))) }
    else if nibble_l (s.memory (s.PC + 1)) = 0x6 then
      finishOk { s with
        PC := s.PC + 2,
        V := upd (upd s.V (nibble_l (s.memory s.PC))
            (s.V (nibble_h (s.memory (s.PC + 1))) >>> 1)) 0xF
          (Nat.land (s.V (nibble_h (s.memory (s.PC + 1)))) 1) }
    else if nibble_l (s.memory (s.PC + 1)) = 0x7 then
      finishOk { s with
        PC := s.PC + 2,
        V := upd (upd s.V (nibble_l (s.memory s.PC))
            (sub8 (s.V (nibble_h (s.memory (s.PC + 1)))) (s.V (nibble_l (s.memory s.PC))))) 0xF
          (noborrow8 (s.V (nibble_h (s.memory (s.PC + 1)))) (s.V (nibble_l (s.memory s.PC)))) }
    else if nibble_l (s.memory (s.PC + 1)) = 0xE then
      finishOk { s with
        PC := s.PC + 2,
        V := upd (upd s.V (nibble_l (s.memory s.PC))
            ((s.V (nibble_h (s.memory (s.PC + 1))) <<< 1) % 256)) 0xF
          (s.V (nibble_h (s.memory (s.PC + 1))) >>> 7) }
    else
      .err (.InvalidOpcode (s.memory s.PC) (s.memory (s.PC + 1)) (s.PC + 2 - 2))
        { s with PC := s.PC + 2 })
  else if nibble_h (s.memory s.PC) = 0x9 then
    (if nibble_l (s.memory (s.PC + 1)) = 0x0 then
      (if s.V (nibble_l (s.memory s.PC)) ≠ s.V (nibble_h (s.memory (s.PC + 1))) then
        finishOk { s with PC := s.PC + 2 + 2 }
       else finishOk { s with PC := s.PC + 2 })
    else
      .err (.InvalidOpcode (s.memory s.PC) (s.memory (s.PC + 1)) (s.PC + 2 - 2))
        { s with PC := s.PC + 2 })
  else if nibble_h (s.memory s.PC) = 0xA then
    finishOk { s with
      PC := s.PC + 2,
      I := nnn (s.memory s.PC) (s.memory (s.PC + 1)) }
  else if nibble_h (s.memory s.PC) = 0xB then
    (if MEM_SIZE ≤ s.V 0x0 + nnn (s.memory s.PC) (s.memory (s.PC + 1)) then
      .err (.InvalidJump (s.memory s.PC) (s.memory (s.PC + 1)) (s.PC + 2 - 2))
        { s with PC := s.PC + 2 - 2 }
    else finishOk { s with PC := s.V 0x0 + nnn (s.memory s.PC) (s.memory (s.PC + 1)) })
  else if nibble_h (s.memory s.PC) = 0xC then
    finishOk { s with
      PC := s.PC + 2,
      V := upd s.V (nibble_l (s.memory s.PC)) (Nat.land (s.rng s.rngIdx) (s.memory (s.PC + 1))),
      rngIdx := s.rngIdx + 1 }
  else if nibble_h (s.memory s.PC) = 0xD then
    (if s.vblank_interrupt = false then .ok { s with PC := s.PC + 2 - 2 }
    else
      match drawLoop s.memory s.I (s.V (nibble_l (s.memory s.PC)) % 0x40)
          (s.V (nibble_h (s.memory (s.PC + 1))) % 0x20)
          0 (nibble_l (s.memory (s.PC + 1))) s.screen (s.V 0xF) with
      | none => .panic
      | some (scr, vf) =>
        finishOk { s with
          PC := s.PC + 2,
          vblank_interrupt := false,
          screen := scr,
          V := upd s.V 0xF vf })
  else if nibble_h (s.memory s.PC) = 0xE then
    (if s.memory (s.PC + 1) = 0x9E then
      (if s.keys (Nat.land (s.V (nibble_l (s.memory s.PC))) 0xF) then
        finishOk { s with PC := s.PC + 2 + 2 }
       else finishOk { s with PC := s.PC + 2 })
    else if s.memory (s.PC + 1) = 0xA1 then
      (if s.keys (Nat.land (s.V (nibble_l (s.memory s.PC))) 0xF) then
        finishOk { s with PC := s.PC + 2 }
       else finishOk { s with PC := s.PC + 2 + 2 })
    else
      .err (.InvalidOpcode (s.memory s.PC) (s.memory (s.PC + 1)) (s.PC + 2 - 2))
        { s with PC := s.PC + 2 })
  else if nibble_h (s.memory s.PC) = 0xF then
    (if s.memory (s.PC + 1) = 0x07 then
      finishOk { s with
        PC := s.PC + 2,
        V := upd s.V (nibble_l (s.memory s.PC)) s.DT }
    else if s.memory (s.PC + 1) = 0x0A then
      (match s.last_pressed_key with
       | some key =>
         finishOk { s with
           PC := s.PC + 2,
           V := upd s.V (nibble_l (s.memory s.PC)) key }
       | none => finishOk { s with PC := s.PC + 2 - 2 })
    else if s.memory (s.PC + 1) = 0x15 then
      finishOk { s with PC := s.PC + 2, DT := s.V (nibble_l (s.memory s.PC)) }
    else if s.memory (s.PC + 1) = 0x18 then
      finishOk { s with PC := s.PC + 2, ST := s.V (nibble_l (s.memory s.PC)) }
    else if s.memory (s.PC + 1) = 0x1E then
      finishOk { s with
        PC := s.PC + 2,
        I := (s.I + s.V (nibble_l (s.memory s.PC))) % 65536 }
    else if s.memory (s.PC + 1) = 0x29 then
      finishOk { s with
        PC := s.PC + 2,
        I := (Nat.land (s.V (nibble_l (s.memory s.PC))) 0xF) * 5 }
    else if s.memory (s.PC + 1) = 0x33 then
      (if MEM_SIZE ≤ s.I + 2 then .panic
       else
        finishOk { s with
          PC := s.PC + 2,
          memory := upd (upd (upd s.memory s.I (s.V (nibble_l (s.memory s.PC)) / 100))
            (s.I + 1) (s.V (nibble_l (s.memory s.PC)) / 10 % 10))
            (s.I + 2) (s.V (nibble_l (s.memory s.PC)) % 100 % 10) })
    else if s.memory (s.PC + 1) = 0x55 then
      (if MEM_SIZE < s.I + (nibble_l (s.memory s.PC) + 1) then .panic
       else
        finishOk { s with
          PC := s.PC + 2,
          memory := fun j =>
            if s.I ≤ j ∧ j < s.I + (nibble_l (s.memory s.PC) + 1) then s.V (j - s.I)
            else s.memory j,
          I := s.I + (nibble_l (s.memory s.PC) + 1) })
    else if s.memory (s.PC + 1) = 0x65 then
      (if MEM_SIZE < s.I + (nibble_l (s.memory s.PC) + 1) then .panic
       else
        finishOk { s with
          PC := s.PC + 2,
          V := fun j =>
            if j < nibble_l (s.memory s.PC) + 1 then s.memory (s.I + j)
            else s.V j,
          I := s.I + (nibble_l (s.memory s.PC) + 1) })
    else
      .err (.InvalidOpcode (s.memory s.PC) (s.memory (s.PC + 1)) (s.PC + 2 - 2))
        { s with PC := s.PC + 2 })
  else
    .err (.InvalidOpcode (s.memory s.PC) (s.memory (s.PC + 1)) (s.PC + 2 - 2))
      { s with PC := s.PC + 2 }

/-- `Emulator::set_key`: `key & 0xF` indexes the key array, but the
recorded "last released" value is `key as u8` (truncation to 8 bits). -/
def set_key (s : Emulator) (key : Nat) (pressed : Bool) : Emulator :=
  let s1 : Emulator :=
    if s.keys (Nat.land key 0xF) = true ∧ pressed = false then
      { s with last_pressed_key := some (key % 256) }
    else s
  { s1 with keys := upd s1.keys (Nat.land key 0xF) pressed }

/-- `Emulator::vblank`. -/
def vblank (s : Emulator) : Emulator := { s with vblank_interrupt := true }

/-- `Emulator::decrease_timers` (`checked_sub(1).unwrap_or(old)`). -/
def decrease_timers (s : Emulator) : Emulator :=
  { s with DT := if s.DT = 0 then s.DT else s.DT - 1,
           ST := if s.ST = 0 then s.ST else s.ST - 1 }

/-- `Emulator::get_pixel`. -/
def get_pixel (s : Emulator) (x y : Nat) : Bool :=
  decide (0 < Nat.land (s.screen (y % 32)) (1 <<< (64 - x % 64 - 1)))

/-- `Emulator::screen_changed`: the changed flag plus the state with the
snapshot updated. -/
def screen_changed (s : Emulator) : Bool × Emulator :=
  ((List.range 32).any fun r => s.screen r != s.prev_screen r,
   { s with prev_screen := s.screen })

/-- `Emulator::load_rom` on an in-memory byte list: font data at
`[0x000, 0x050)`, rom bytes from `0x200` clamped to `MAX_ROM_SIZE`,
everything else zeroed.  The RNG stream is a parameter (the Rust code
seeds a `WyRand` here). -/
def load_rom (rngStream : Nat → Nat) (rom : List Nat) : Emulator :=
  { PC := ADDR_START
    memory := fun j =>
      if j < SPRITE_DATA.length then SPRITE_DATA.getD j 0
      else if ADDR_START ≤ j ∧ j < ADDR_START + min rom.length MAX_ROM_SIZE then
        rom.getD (j - ADDR_START) 0
      else 0
    V := fun _ => 0
    I := 0
    sub_stack := []
    DT := 0
    ST := 0
    keys := fun _ => false
    rng := rngStream
    rngIdx := 0
    screen := fun _ => 0
    prev_screen := fun _ => 0
    vblank_interrupt := false
    last_pressed_key := none }

/-- State carried by a non-panicking step (`Ok` or `Err`). -/
def outState : StepOut → Option Emulator
  | .ok s => some s
  | .err _ s => some s
  | .panic => none

/-- State of an `Ok` step. -/
def okState : StepOut → Option Emulator
  | .ok s => some s
  | _ => none

/-- Error of an `Err` step. -/
def errOf : StepOut → Option EmulatorError
  | .err e _ => some e
  | _ => none

/-- Whether a step panicked. -/
def isPanic : StepOut → Bool
  | .panic => true
  | _ => false

/-- The machine state after a step, with a fallback for a panic. -/
def stepState (r : StepOut) (d : Emulator) : Emulator :=
  match r with
  | .ok t => t
  | .err _ t => t
  | .panic => d

/-- The `exec_cycles` driver of the test module in `emulator.rs`: each cycle
signals vblank and then executes one instruction. -/
def exec_cycles : Emulator → Nat → Emulator
  | s, 0 => s
  | s, n + 1 => exec_cycles (stepState (execStep (vblank s)) (vblank s)) n

/-- Zero RNG stream used for concrete machines (no claim involves `Cxnn`). -/
def zeroRng : Nat → Nat := fun _ => 0

/-- Concrete machine about to draw one font byte at (0,0): `D001` at `0x200`
with the vblank latch set. -/
def wDraw : Emulator := vblank (load_rom zeroRng [0xD0, 0x01])

/-- Concrete machine for `8106` (`V1 := V0 >> 1`) with `V0 = 0xF0`. -/
def wShiftR : Emulator :=
  { load_rom zeroRng [0x81, 0x06] with V := upd (fun _ => 0) 0 0xF0 }

/-- Concrete machine for `810E` (`V1 := V0 << 1`) with `V0 = 0xF0`. -/
def wShiftL : Emulator :=
  { load_rom zeroRng [0x81, 0x0E] with V := upd (fun _ => 0) 0 0xF0 }

/-- Concrete machine for `BFFF` with `V0 = 0xFF`: jump target out of range. -/
def wJumpHi : Emulator :=
  { load_rom zeroRng [0xBF, 0xFF] with V := upd (fun _ => 0) 0 0xFF }

/-- Concrete machine for `B300` with `V0 = 0`: jump target in range. -/
def wJumpLo : Emulator := load_rom zeroRng [0xB3, 0x00]

/-- Concrete machine with key 2 pressed (via raw key argument 18). -/
def wKeyRec : Emulator := set_key (load_rom zeroRng []) 18 true

/-- Concrete machine for `F30A` with a recorded released key 7. -/
def wWaitSome : Emulator :=
  { load_rom zeroRng [0xF3, 0x0A] with last_pressed_key := some 7 }

/-- Concrete machine for `F30A` with no recorded released key. -/
def wWaitNone : Emulator := load_rom zeroRng [0xF3, 0x0A]

/-- Concrete machine for the `0nnn` arm: bytes `01 23` at `0x200`. -/
def wSub : Emulator := load_rom zeroRng [0x01, 0x23]

/-- Concrete machine for `F155` with `I = 0x300` (above the font area). -/
def wFont : Emulator := { load_rom zeroRng [0xF1, 0x55] with I := 0x300 }

/-- Concrete machine for the `F155`/`F165` round trip: `V0 = 5`, `V1 = 7`,
`I = 0x300`. -/
def wStore : Emulator :=
  { load_rom zeroRng [0xF1, 0x55, 0xF1, 0x65] with
    I := 0x300, V := upd (upd (fun _ => 0) 0 5) 1 7 }

/-- Concrete machine for `D015` with the vblank latch not set. -/
def wGateOff : Emulator := load_rom zeroRng [0xD0, 0x15]

theorem upd_self {α : Type} (f : Nat → α) (i : Nat) (v : α) : upd f i v i = v := by
  simp [upd]

theorem upd_ne {α : Type} (f : Nat → α) (i j : Nat) (v : α) (h : j ≠ i) :
    upd f i v j = f j := by
  simp [upd, h]

/-- Once the draw loop has set VF to 1, it stays 1. -/
theorem drawLoop_vf_absorb (mem : Nat → Nat) (iReg x y : Nat) :
    ∀ rem off screen scr vf2,
      drawLoop mem iReg x y off rem screen 1 = some (scr, vf2) → vf2 = 1 := by
  intro rem
  induction rem with
  | zero =>
    intro off screen scr vf2 h
    simp only [drawLoop, Option.some.injEq, Prod.mk.injEq] at h
    exact h.2.symm
  | succ n ih =>
    intro off screen scr vf2 h
    simp only [drawLoop, ite_self] at h
    split at h
    · simp only [Option.some.injEq, Prod.mk.injEq] at h
      exact h.2.symm
    · split at h
      · exact Option.noConfusion h
      · exact ih (off + 1) _ scr vf2 h

/-- The VF output of the draw loop: 1 when some drawn row cleared a set
pixel, the incoming VF otherwise. -/
theorem drawLoop_vf (mem : Nat → Nat) (iReg x y : Nat) :
    ∀ rem off screen vf scr vf2,
      drawLoop mem iReg x y off rem screen vf = some (scr, vf2) →
      vf2 = if anyCleared mem iReg x y off rem screen then 1 else vf := by
  intro rem
  induction rem with
  | zero =>
    intro off screen vf scr vf2 h
    simp only [drawLoop, Option.some.injEq, Prod.mk.injEq] at h
    simp only [anyCleared, if_neg Bool.false_ne_true, h.2.symm]
  | succ n ih =>
    intro off screen vf scr vf2 h
    simp only [drawLoop] at h
    simp only [anyCleared]
    split at h
    · rename_i hrow
      simp only [Option.some.injEq, Prod.mk.injEq] at h
      rw [if_pos hrow]
      simp [h.2.symm]
    · rename_i hrow
      split at h
      · exact Option.noConfusion h
      · rename_i hloc
        rw [if_neg hrow, if_neg hloc]
        by_cases hcol :
            screen (y + off) =
              Nat.land (screen (y + off))
                (Nat.xor (screen (y + off)) (shiftSprite x (mem (iReg + off))))
        · rw [if_pos hcol] at h ⊢
          exact ih (off + 1) _ vf scr vf2 h
        · rw [if_neg hcol] at h ⊢
          simp only [if_pos rfl]
          simp only [if_true]
          exact drawLoop_vf_absorb mem iReg x y n (off + 1) _ scr vf2 h

/-- Rows the draw loop does not touch: everything below `y + off`, at or
beyond `y + off + rem`, or at or beyond row 32. -/
theorem drawLoop_frame (mem : Nat → Nat) (iReg x y : Nat) :
    ∀ rem off screen vf scr vf2,
      drawLoop mem iReg x y off rem screen vf = some (scr, vf2) →
      ∀ r, (r < y + off ∨ y + off + rem ≤ r ∨ 32 ≤ r) → scr r = screen r := by
  intro rem
  induction rem with
  | zero =>
    intro off screen vf scr vf2 h r _
    simp only [drawLoop, Option.some.injEq, Prod.mk.injEq] at h
    rw [← h.1]
  | succ n ih =>
    intro off screen vf scr vf2 h r hr
    simp only [drawLoop] at h
    split at h
    · simp only [Option.some.injEq, Prod.mk.injEq] at h
      rw [← h.1]
    · rename_i hrow
      split at h
      · exact Option.noConfusion h
      · have hrec := ih (off + 1) _ _ scr vf2 h r (by omega)
        rw [hrec]
        exact upd_ne screen (y + off) r _ (by omega)

set_option maxHeartbeats 3200000 in
/-- No arm of `execute` writes memory below the address register `I`: the
only memory writes (`Fx33`, `Fx55`) start at `I`. -/
theorem execStep_memory_lower (s : Emulator) (adr : Nat) (hadr : adr < s.I) :
    ∀ t, outState (execStep s) = some t → t.memory adr = s.memory adr := by
  intro t h
  have hn : nibble_h (s.memory s.PC) ≤ 15 := Nat.and_le_right
  by_cases hpc : MEM_SIZE < s.PC + 2
  · simp [execStep, hpc, outState] at h
  · have h16 : nibble_h (s.memory s.PC) = 0 ∨ nibble_h (s.memory s.PC) = 1
        ∨ nibble_h (s.memory s.PC) = 2 ∨ nibble_h (s.memory s.PC) = 3
        ∨ nibble_h (s.memory s.PC) = 4 ∨ nibble_h (s.memory s.PC) = 5
        ∨ nibble_h (s.memory s.PC) = 6 ∨ nibble_h (s.memory s.PC) = 7
        ∨ nibble_h (s.memory s.PC) = 8 ∨ nibble_h (s.memory s.PC) = 9
        ∨ nibble_h (s.memory s.PC) = 10 ∨ nibble_h (s.memory s.PC) = 11
        ∨ nibble_h (s.memory s.PC) = 12 ∨ nibble_h (s.memory s.PC) = 13
        ∨ nibble_h (s.memory s.PC) = 14 ∨ nibble_h (s.memory s.PC) = 15 := by omega
    rcases h16 with hv|hv|hv|hv|hv|hv|hv|hv|hv|hv|hv|hv|hv|hv|hv|hv
    all_goals simp only [execStep, hv, hpc] at h
    all_goals try norm_num at h
    all_goals try repeat' split at h
    all_goals try simp only [outState, finishOk, Option.some.injEq] at h
    all_goals try exact Option.noConfusion h
    all_goals try subst h
    all_goals try rfl
    by_cases h07 : s.memory (s.PC + 1) = 7
    · rw [if_pos h07] at h
      simp only [outState, Option.some.injEq] at h
      subst h
      rfl
    rw [if_neg h07] at h
    by_cases h0A : s.memory (s.PC + 1) = 10
    · rw [if_pos h0A] at h
      rcases hk : s.last_pressed_key with _ | key
      all_goals rw [hk] at h
      all_goals simp only [outState, Option.some.injEq] at h
      all_goals subst h
      all_goals rfl
    rw [if_neg h0A] at h
    by_cases h15 : s.memory (s.PC + 1) = 21
    · rw [if_pos h15] at h
      simp only [outState, Option.some.injEq] at h
      subst h
      rfl
    rw [if_neg h15] at h
    by_cases h18 : s.memory (s.PC + 1) = 24
    · rw [if_pos h18] at h
      simp only [outState, Option.some.injEq] at h
      subst h
      rfl
    rw [if_neg h18] at h
    by_cases h1E : s.memory (s.PC + 1) = 30
    · rw [if_pos h1E] at h
      simp only [outState, Option.some.injEq] at h
      subst h
      rfl
    rw [if_neg h1E] at h
    by_cases h29 : s.memory (s.PC + 1) = 41
    · rw [if_pos h29] at h
      simp only [outState, Option.some.injEq] at h
      subst h
      rfl
    rw [if_neg h29] at h
    by_cases h33 : s.memory (s.PC + 1) = 51
    · rw [if_pos h33] at h
      by_cases hp : MEM_SIZE ≤ s.I + 2
      · rw [if_pos hp] at h
        exact absurd h (by simp [outState])
      · rw [if_neg hp] at h
        simp only [outState, Option.some.injEq] at h
        subst h
        simp only [upd]
        rw [if_neg (by omega), if_neg (by omega), if_neg (by omega)]
    rw [if_neg h33] at h
    by_cases h55 : s.memory (s.PC + 1) = 85
    · rw [if_pos h55] at h
      by_cases hp : MEM_SIZE < s.I + (nibble_l (s.memory s.PC) + 1)
      · rw [if_pos hp] at h
        exact absurd h (by simp [outState])
      · rw [if_neg hp] at h
        simp only [outState, Option.some.injEq] at h
        subst h
        simp only []
        rw [if_neg (by omega)]
    rw [if_neg h55] at h
    by_cases h65 : s.memory (s.PC + 1) = 101
    · rw [if_pos h65] at h
      by_cases hp : MEM_SIZE < s.I + (nibble_l (s.memory s.PC) + 1)
      · rw [if_pos hp] at h
        exact absurd h (by simp [outState])
      · rw [if_neg hp] at h
        simp only [outState, Option.some.injEq] at h
        subst h
        rfl
    rw [if_neg h65] at h
    simp only [outState, Option.some.injEq] at h
    subst h
    rfl

/-- C1 (counterexample): the claim "a collision-free draw sets VF to 0 even
if VF was 1 before" is false.  With VF = 1 and the vblank latch set, the
draw `D000` (zero rows, hence certainly no pixel cleared) completes with
PC advanced, yet VF is still 1 afterwards: the `Dxyn` arm never resets VF
to 0. -/
theorem draw_collision_free_keeps_stale_vf :
    (exec_cycles (load_rom zeroRng [0x6F, 0x01, 0xD0, 0x00]) 2).V 0xF = 1
    ∧ (exec_cycles (load_rom zeroRng [0x6F, 0x01, 0xD0, 0x00]) 2).PC = 0x204
    ∧ anyCleared (vblank (exec_cycles (load_rom zeroRng [0x6F, 0x01, 0xD0, 0x00]) 1)).memory
        (vblank (exec_cycles (load_rom zeroRng [0x6F, 0x01, 0xD0, 0x00]) 1)).I 0 0 0 0
        (vblank (exec_cycles (load_rom zeroRng [0x6F, 0x01, 0xD0, 0x00]) 1)).screen = false :=
  ⟨by decide, by decide, by decide⟩

/-- C1 (amended): for every machine state in which the vblank latch is set
and the `Dxyn` draw completes, VF afterwards is 1 if XOR-ing the shifted
sprite bytes onto the framebuffer cleared some previously-set pixel
(`old AND NOT new` nonzero for some drawn row, aggregated with OR), and
otherwise VF keeps its value from before the instruction (it is not reset
to 0). -/
theorem draw_vf_set_on_collision_else_unchanged (s t : Emulator)
    (hpc : s.PC + 2 ≤ MEM_SIZE)
    (ha : nibble_h (s.memory s.PC) = 0xD)
    (hv : s.vblank_interrupt = true)
    (hok : execStep s = .ok t) :
    t.V 0xF = if anyCleared s.memory s.I (s.V (nibble_l (s.memory s.PC)) % 0x40)
        (s.V (nibble_h (s.memory (s.PC + 1))) % 0x20) 0 (nibble_l (s.memory (s.PC + 1)))
        s.screen then 1 else s.V 0xF := by
  simp only [execStep, finishOk, ha, hv, Nat.not_lt.mpr hpc] at hok
  norm_num at hok
  split at hok
  · exact StepOut.noConfusion hok
  · rename_i scr vfv heq
    simp only [StepOut.ok.injEq] at hok
    subst hok
    simp only [upd_self]
    exact drawLoop_vf _ _ _ _ _ _ _ _ _ _ heq

/-- C1 (witness): the amended theorem applied to the concrete machine
`wDraw` (a collision-free one-row draw with VF = 0 beforehand). -/
theorem draw_vf_set_on_collision_else_unchanged_witness :
    wDraw.vblank_interrupt = true
    ∧ (stepState (execStep wDraw) wDraw).V 0xF =
        if anyCleared wDraw.memory wDraw.I (wDraw.V (nibble_l (wDraw.memory wDraw.PC)) % 0x40)
          (wDraw.V (nibble_h (wDraw.memory (wDraw.PC + 1))) % 0x20) 0
          (nibble_l (wDraw.memory (wDraw.PC + 1))) wDraw.screen then 1 else wDraw.V 0xF :=
  ⟨by decide,
   draw_vf_set_on_collision_else_unchanged wDraw (stepState (execStep wDraw) wDraw)
     (by decide) (by decide) (by decide) rfl⟩

/-- C2: evaluation at a failing input.  The two-byte program `1F FF` jumps
to 0xFFF; the next fetch indexes `memory[0x1000]` out of bounds, which in
the Rust source is a panic, not a reported `EmulatorError`.  Likewise
`AF FE` (I := 0xFFE) followed by `F0 33` panics writing `memory[0x1000]`.
This contradicts the claim that malformed programs always produce a
reported error. -/
theorem execute_panics_on_malformed_program :
    (stepState (execStep (load_rom zeroRng [0x1F, 0xFF])) (load_rom zeroRng [0x1F, 0xFF])).PC = 0xFFF
    ∧ isPanic (execStep (stepState (execStep (load_rom zeroRng [0x1F, 0xFF]))
        (load_rom zeroRng [0x1F, 0xFF]))) = true
    ∧ isPanic (execStep (stepState (execStep (load_rom zeroRng [0xAF, 0xFE, 0xF0, 0x33]))
        (load_rom zeroRng [0xAF, 0xFE, 0xF0, 0x33]))) = true :=
  ⟨by decide, by decide, by decide⟩

/-- C3 (counterexample): the font bytes are not immutable.  `F0 29` sets
I := 5·(V0 AND 0xF) = 0 (inside the font area) and `F0 33` then writes the
BCD of V0 = 0 to memory[0..2]: the glyph byte at address 0, initially
0xF0, becomes 0. -/
theorem font_area_overwritten_by_program :
    (load_rom zeroRng []).memory 0 = 0xF0
    ∧ (exec_cycles (load_rom zeroRng [0xF0, 0x29, 0xF0, 0x33]) 2).memory 0 = 0
    ∧ (exec_cycles (load_rom zeroRng [0xF0, 0x29, 0xF0, 0x33]) 2).I = 0 :=
  ⟨by decide, by decide, by decide⟩

/-- C3 (amended): the 80 font bytes in [0x000, 0x050) are written at
construction (they equal the `SPRITE_DATA` glyphs), and they are preserved
by `set_key`, `vblank`, `decrease_timers`, `screen_changed` and by every
`execute` step — whether it returns `Ok` or `Err` — executed while the
address register I is at least 0x50.  (An `Fx33`/`Fx55` executed with
I < 0x50 can overwrite them, as the counterexample shows.) -/
theorem font_bytes_preserved_when_I_above_font (s t : Emulator) (adr k : Nat) (p : Bool)
    (rngS : Nat → Nat) (rom : List Nat)
    (hadr : adr < 0x50) :
    (load_rom rngS rom).memory adr = SPRITE_DATA.getD adr 0
    ∧ (set_key s k p).memory adr = s.memory adr
    ∧ (vblank s).memory adr = s.memory adr
    ∧ (decrease_timers s).memory adr = s.memory adr
    ∧ (screen_changed s).2.memory adr = s.memory adr
    ∧ (0x50 ≤ s.I → outState (execStep s) = some t → t.memory adr = s.memory adr) := by
  have hlen : SPRITE_DATA.length = 80 := rfl
  refine ⟨?_, ?_, rfl, rfl, rfl, ?_⟩
  · simp only [load_rom]
    rw [if_pos (by omega)]
  · simp only [set_key]
    split
    all_goals rfl
  · intro hI hstep
    exact execStep_memory_lower s adr (by omega) t hstep

/-- C3 (witness): the amended theorem applied to the machine `wFont`
(instruction `F155`, I = 0x300 above the font area) at font address 0. -/
theorem font_bytes_preserved_when_I_above_font_witness :
    (0 : Nat) < 0x50
    ∧ (stepState (execStep wFont) wFont).memory 0 = wFont.memory 0 :=
  ⟨by decide,
   (font_bytes_preserved_when_I_above_font wFont (stepState (execStep wFont) wFont) 0 3 true
      zeroRng [] (by decide)).2.2.2.2.2 (by decide) rfl⟩

/-- C4 (counterexample): for the program bytes `01 23` at 0x200, the
machine-subroutine error carries the single address 0x202 — the
program-counter value after the pre-increment, not the fetch address
0x200, and no raw instruction bytes at all (the `MachineSubroutine`
variant has only one field). -/
theorem machine_subroutine_error_payload :
    errOf (execStep (load_rom zeroRng [0x01, 0x23])) = some (.MachineSubroutine 0x202)
    ∧ errOf (execStep (load_rom zeroRng [0x01, 0x23])) ≠ some (.MachineSubroutine 0x200)
    ∧ (load_rom zeroRng [0x01, 0x23]).PC = 0x200 :=
  ⟨by decide, by decide, by decide⟩

/-- C4 (amended): for every machine state whose next instruction word is
`0nnn` with `nnn` not 0E0 or 0EE, `execute` returns the
machine-code-subroutine error carrying only an address, namely the
post-increment program counter (fetch address + 2); PC is left at that
same post-increment value. -/
theorem machine_subroutine_error_post_increment (s : Emulator)
    (hpc : s.PC + 2 ≤ MEM_SIZE)
    (h0 : nibble_h (s.memory s.PC) = 0x0)
    (hne : ¬(s.memory s.PC = 0x00 ∧ s.memory (s.PC + 1) = 0xE0))
    (hnr : ¬(s.memory s.PC = 0x00 ∧ s.memory (s.PC + 1) = 0xEE)) :
    execStep s = .err (.MachineSubroutine (s.PC + 2)) { s with PC := s.PC + 2 } := by
  simp [execStep, h0, Nat.not_lt.mpr hpc, hne, hnr]

/-- C4 (witness): the amended theorem applied to `wSub` (bytes `01 23` at
0x200). -/
theorem machine_subroutine_error_post_increment_witness :
    execStep wSub = .err (.MachineSubroutine 0x202) { wSub with PC := 0x202 } :=
  machine_subroutine_error_post_increment wSub (by decide) (by decide) (by decide) (by decide)

/-- C5 (counterexample): `set_key` records the released key index
truncated to 8 bits but NOT masked to 0–15.  Releasing raw key 16 (whose
masked index 0 is pressed) records 16, and the following `Fx0A` stores
16 — not a value in 0–15 — into V0. -/
theorem set_key_records_unmasked_key :
    (set_key (set_key (load_rom zeroRng [0xF0, 0x0A]) 16 true) 16 false).last_pressed_key = some 16
    ∧ (stepState (execStep (set_key (set_key (load_rom zeroRng [0xF0, 0x0A]) 16 true) 16 false))
        (load_rom zeroRng [])).V 0 = 16
    ∧ ¬(16 : Nat) ≤ 15 :=
  ⟨by decide, by decide, by decide⟩

/-- C5 (amended): `set_key(k, released)` while key `k AND 0xF` is pressed
records `k` truncated to 8 bits (`k mod 256`, not masked to 0–15); a
subsequent `Fx0A` with a recorded key stores that recorded value —
which may exceed 15 — into Vx and lets PC advance by 2, while `Fx0A`
with no recorded release rolls PC back by 2, leaving the machine
unchanged so the same instruction is re-fetched. -/
theorem set_key_record_and_wait (s1 s2 s3 : Emulator) (k k2 : Nat)
    (h1 : s1.keys (Nat.land k 0xF) = true)
    (hpc2 : s2.PC + 2 ≤ MEM_SIZE)
    (ha2 : nibble_h (s2.memory s2.PC) = 0xF)
    (hb2 : s2.memory (s2.PC + 1) = 0x0A)
    (hsome : s2.last_pressed_key = some k2)
    (hpc3 : s3.PC + 2 ≤ MEM_SIZE)
    (ha3 : nibble_h (s3.memory s3.PC) = 0xF)
    (hb3 : s3.memory (s3.PC + 1) = 0x0A)
    (hnone : s3.last_pressed_key = none) :
    (set_key s1 k false).last_pressed_key = some (k % 256)
    ∧ execStep s2 = .ok { s2 with
        PC := s2.PC + 2,
        V := upd s2.V (nibble_l (s2.memory s2.PC)) k2,
        last_pressed_key := none }
    ∧ execStep s3 = .ok s3 := by
  refine ⟨?_, ?_, ?_⟩
  · simp [set_key, h1]
  · simp [execStep, finishOk, ha2, hb2, hsome, Nat.not_lt.mpr hpc2]
  · obtain ⟨PC, mem, V, I, stk, DT, ST, keys, rng, ri, scr, ps, vb, lk⟩ := s3
    simp only at ha3 hb3 hnone hpc3
    subst hnone
    simp [execStep, finishOk, ha3, hb3, Nat.not_lt.mpr hpc3]

/-- C5 (witness): the amended theorem applied to `wKeyRec` (key 2 pressed
via raw argument 18), `wWaitSome` (`F30A` with recorded key 7) and
`wWaitNone` (`F30A` with no recorded key). -/
theorem set_key_record_and_wait_witness :
    (set_key wKeyRec 18 false).last_pressed_key = some 18
    ∧ (stepState (execStep wWaitSome) wWaitSome).V 3 = 7
    ∧ execStep wWaitNone = .ok wWaitNone := by
  have h := set_key_record_and_wait wKeyRec wWaitSome wWaitNone 18 7
    (by decide) (by decide) (by decide) (by decide) (by decide)
    (by decide) (by decide) (by decide) (by decide)
  refine ⟨h.1, ?_, h.2.2⟩
  rw [h.2.1]
  decide

/-- C6: the shift instructions `8xy6` and `8xyE` compute the flag from the
pre-shift value of Vy (its low bit for `8xy6`, its high bit for `8xyE`),
assign Vx the shifted value, and write VF last (so when x = 0xF the flag
wins); concretely, with V0 = 0xF0, executing `8006` yields V0 = 0x78 and
VF = 0. -/
theorem shift_flag_from_pre_shift_vy (s s2 t t2 : Emulator)
    (hpc : s.PC + 2 ≤ MEM_SIZE)
    (ha : nibble_h (s.memory s.PC) = 0x8)
    (hb : nibble_l (s.memory (s.PC + 1)) = 0x6)
    (hok : execStep s = .ok t)
    (hpc2 : s2.PC + 2 ≤ MEM_SIZE)
    (ha2 : nibble_h (s2.memory s2.PC) = 0x8)
    (hb2 : nibble_l (s2.memory (s2.PC + 1)) = 0xE)
    (hok2 : execStep s2 = .ok t2) :
    (t.V 0xF = Nat.land (s.V (nibble_h (s.memory (s.PC + 1)))) 1
      ∧ (nibble_l (s.memory s.PC) ≠ 0xF →
          t.V (nibble_l (s.memory s.PC)) = s.V (nibble_h (s.memory (s.PC + 1))) >>> 1))
    ∧ (t2.V 0xF = s2.V (nibble_h (s2.memory (s2.PC + 1))) >>> 7
      ∧ (nibble_l (s2.memory s2.PC) ≠ 0xF →
          t2.V (nibble_l (s2.memory s2.PC)) =
            (s2.V (nibble_h (s2.memory (s2.PC + 1))) <<< 1) % 256))
    ∧ ((exec_cycles (load_rom zeroRng [0x60, 0xF0, 0x80, 0x06]) 2).V 0 = 0x78
      ∧ (exec_cycles (load_rom zeroRng [0x60, 0xF0, 0x80, 0x06]) 2).V 0xF = 0) := by
  refine ⟨?_, ?_, by decide, by decide⟩
  · simp [execStep, finishOk, ha, hb, Nat.not_lt.mpr hpc] at hok
    subst hok
    constructor
    · simp [upd]
    · intro hx
      simp [upd, hx]
  · simp [execStep, finishOk, ha2, hb2, Nat.not_lt.mpr hpc2] at hok2
    subst hok2
    constructor
    · simp [upd]
    · intro hx
      simp [upd, hx]

/-- C6 (witness): the theorem applied to `wShiftR` (`8106`, V0 = 0xF0) and
`wShiftL` (`810E`, V0 = 0xF0). -/
theorem shift_flag_from_pre_shift_vy_witness :
    (stepState (execStep wShiftR) wShiftR).V 0xF = Nat.land (wShiftR.V 0) 1
    ∧ (stepState (execStep wShiftL) wShiftL).V 0xF = wShiftL.V 0 >>> 7 := by
  have h := shift_flag_from_pre_shift_vy wShiftR wShiftL
    (stepState (execStep wShiftR) wShiftR) (stepState (execStep wShiftL) wShiftL)
    (by decide) (by decide) (by decide) rfl
    (by decide) (by decide) (by decide) rfl
  exact ⟨h.1.1, h.2.1.1⟩

/-- C7: for a `Bnnn` instruction, when V0 + nnn ≥ 4096 `execute` returns
the invalid-jump error carrying the two instruction bytes and the fetch
address, and leaves the machine state exactly as it was (PC back at the
offending instruction), so re-executing fails identically; when
V0 + nnn < 4096, PC is set to V0 + nnn. -/
theorem bnnn_jump_bounds_check (s s2 : Emulator)
    (hpc : s.PC + 2 ≤ MEM_SIZE)
    (ha : nibble_h (s.memory s.PC) = 0xB)
    (hge : MEM_SIZE ≤ s.V 0 + nnn (s.memory s.PC) (s.memory (s.PC + 1)))
    (hpc2 : s2.PC + 2 ≤ MEM_SIZE)
    (ha2 : nibble_h (s2.memory s2.PC) = 0xB)
    (hlt : s2.V 0 + nnn (s2.memory s2.PC) (s2.memory (s2.PC + 1)) < MEM_SIZE) :
    execStep s = .err (.InvalidJump (s.memory s.PC) (s.memory (s.PC + 1)) s.PC) s
    ∧ execStep s2 = .ok { s2 with
        PC := s2.V 0 + nnn (s2.memory s2.PC) (s2.memory (s2.PC + 1)),
        last_pressed_key := none } := by
  constructor
  · simp [execStep, ha, Nat.not_lt.mpr hpc, hge]
  · simp [execStep, finishOk, ha2, Nat.not_lt.mpr hpc2, Nat.not_le.mpr hlt]

/-- C7 (witness): the theorem applied to `wJumpHi` (`BFFF` with V0 = 0xFF,
target 0x10FE out of range) and `wJumpLo` (`B300` with V0 = 0, target
0x300). -/
theorem bnnn_jump_bounds_check_witness :
    execStep wJumpHi = .err (.InvalidJump 0xBF 0xFF 0x200) wJumpHi
    ∧ (stepState (execStep wJumpLo) wJumpLo).PC = 0x300 := by
  have h := bnnn_jump_bounds_check wJumpHi wJumpLo
    (by decide) (by decide) (by decide) (by decide) (by decide) (by decide)
  refine ⟨h.1, ?_⟩
  rw [h.2]
  decide

/-- C8: a `Dxyn` executed with the vblank latch false returns `Ok` and
leaves the machine state literally unchanged (PC rolled back to the
instruction, framebuffer, registers, latch and last-released-key slot all
as before); a `Dxyn` that proceeds with the latch true clears the latch. -/
theorem draw_gated_on_vblank_latch (s s2 t2 : Emulator)
    (hpc : s.PC + 2 ≤ MEM_SIZE)
    (ha : nibble_h (s.memory s.PC) = 0xD)
    (hv : s.vblank_interrupt = false)
    (hpc2 : s2.PC + 2 ≤ MEM_SIZE)
    (ha2 : nibble_h (s2.memory s2.PC) = 0xD)
    (hv2 : s2.vblank_interrupt = true)
    (hok2 : execStep s2 = .ok t2) :
    execStep s = .ok s ∧ t2.vblank_interrupt = false := by
  constructor
  · obtain ⟨PC, mem, V, I, stk, DT, ST, keys, rng, ri, scr, ps, vb, lk⟩ := s
    simp only at hv ha hpc
    subst hv
    simp [execStep, ha, Nat.not_lt.mpr hpc]
  · simp only [execStep, finishOk, ha2, hv2, Nat.not_lt.mpr hpc2] at hok2
    norm_num at hok2
    split at hok2
    · exact StepOut.noConfusion hok2
    · simp only [StepOut.ok.injEq] at hok2
      subst hok2
      rfl

/-- C8 (witness): the theorem applied to `wGateOff` (`D015`, latch false)
and `wDraw` (`D001`, latch true). -/
theorem draw_gated_on_vblank_latch_witness :
    execStep wGateOff = .ok wGateOff
    ∧ (stepState (execStep wDraw) wDraw).vblank_interrupt = false := by
  have h := draw_gated_on_vblank_latch wGateOff wDraw (stepState (execStep wDraw) wDraw)
    (by decide) (by decide) (by decide) (by decide) (by decide) (by decide) rfl
  exact h

/-- C9: executing `Fx55` stores V0..Vx to memory at I (and advances I by
x + 1); executing `Fx65` afterwards at the same start address — with the
registers arbitrarily overwritten in between — restores the original
values of V0..Vx and again leaves I advanced by x + 1. -/
theorem store_load_round_trip (s t u w : Emulator) (V2 : Nat → Nat) (pc2 : Nat)
    (hpc : s.PC + 2 ≤ MEM_SIZE)
    (ha : nibble_h (s.memory s.PC) = 0xF)
    (hb : s.memory (s.PC + 1) = 0x55)
    (hI : s.I + (nibble_l (s.memory s.PC) + 1) ≤ MEM_SIZE)
    (hstep1 : execStep s = .ok t)
    (hu : u = { t with
      V := V2,
      I := s.I,
      PC := pc2 })
    (hpc2 : pc2 + 2 ≤ MEM_SIZE)
    (ha2 : nibble_h (t.memory pc2) = 0xF)
    (hx2 : nibble_l (t.memory pc2) = nibble_l (s.memory s.PC))
    (hb2 : t.memory (pc2 + 1) = 0x65)
    (hstep2 : execStep u = .ok w) :
    t.I = s.I + (nibble_l (s.memory s.PC) + 1)
    ∧ (∀ j, j ≤ nibble_l (s.memory s.PC) → t.memory (s.I + j) = s.V j)
    ∧ w.I = s.I + (nibble_l (s.memory s.PC) + 1)
    ∧ (∀ j, j ≤ nibble_l (s.memory s.PC) → w.V j = s.V j) := by
  simp only [execStep, finishOk, ha, hb, Nat.not_lt.mpr hpc] at hstep1
  norm_num at hstep1
  rw [if_neg (by omega)] at hstep1
  simp only [StepOut.ok.injEq] at hstep1
  subst hstep1
  subst hu
  simp only at ha2 hx2 hb2
  simp only [execStep, finishOk, ha2, hb2, Nat.not_lt.mpr hpc2] at hstep2
  norm_num [hx2] at hstep2
  rw [if_neg (by omega)] at hstep2
  simp only [StepOut.ok.injEq] at hstep2
  subst hstep2
  refine ⟨rfl, ?_, rfl, ?_⟩
  · intro j hj
    simp only []
    rw [if_pos (by omega)]
    congr 1
    omega
  · intro j hj
    simp only []
    rw [if_pos (by omega), if_pos (by omega)]

/-- C9 (witness): the round trip on `wStore` (`F155` then `F165`, with
I = 0x300, V0 = 5, V1 = 7, registers zeroed in between). -/
theorem store_load_round_trip_witness :
    (stepState (execStep wStore) wStore).I = 0x302
    ∧ (stepState (execStep { stepState (execStep wStore) wStore with
        V := fun _ => 0,
        I := 0x300,
        PC := 0x202 }) wStore).V 0 = 5
    ∧ (stepState (execStep { stepState (execStep wStore) wStore with
        V := fun _ => 0,
        I := 0x300,
        PC := 0x202 }) wStore).V 1 = 7 := by
  have h := store_load_round_trip wStore (stepState (execStep wStore) wStore)
    { stepState (execStep wStore) wStore with
      V := fun _ => 0,
      I := 0x300,
      PC := 0x202 }
    (stepState (execStep { stepState (execStep wStore) wStore with
      V := fun _ => 0,
      I := 0x300,
      PC := 0x202 }) wStore)
    (fun _ => 0) 0x202
    (by decide) (by decide) (by decide) (by decide) rfl rfl
    (by decide) (by decide) (by decide) (by decide) rfl
  exact ⟨h.1, h.2.2.2 0 (by decide), h.2.2.2 1 (by decide)⟩

/-- C10: a `Dxyn` that proceeds (latch set) modifies only the framebuffer
rows from Vy mod 32 up to min(Vy mod 32 + n, 32) and possibly VF: memory,
I, the stack, the timers, the keys, the RNG position are untouched, PC
advances by exactly 2, every register other than VF keeps its value, and
every framebuffer row outside the drawn range keeps its value. -/
theorem draw_touches_only_target_rows_and_vf (s t : Emulator)
    (hpc : s.PC + 2 ≤ MEM_SIZE)
    (ha : nibble_h (s.memory s.PC) = 0xD)
    (hv : s.vblank_interrupt = true)
    (hok : execStep s = .ok t) :
    t.memory = s.memory ∧ t.I = s.I ∧ t.PC = s.PC + 2 ∧ t.sub_stack = s.sub_stack
    ∧ t.DT = s.DT ∧ t.ST = s.ST ∧ t.keys = s.keys ∧ t.rng = s.rng ∧ t.rngIdx = s.rngIdx
    ∧ (∀ j, j ≠ 0xF → t.V j = s.V j)
    ∧ (∀ r, r < s.V (nibble_h (s.memory (s.PC + 1))) % 0x20
           ∨ s.V (nibble_h (s.memory (s.PC + 1))) % 0x20 + nibble_l (s.memory (s.PC + 1)) ≤ r
           ∨ 32 ≤ r →
        t.screen r = s.screen r) := by
  simp only [execStep, finishOk, ha, hv, Nat.not_lt.mpr hpc] at hok
  norm_num at hok
  split at hok
  · exact StepOut.noConfusion hok
  · rename_i scr vfv heq
    simp only [StepOut.ok.injEq] at hok
    subst hok
    refine ⟨rfl, rfl, rfl, rfl, rfl, rfl, rfl, rfl, rfl, ?_, ?_⟩
    · intro j hj
      exact upd_ne _ _ _ _ hj
    · intro r hr
      exact drawLoop_frame _ _ _ _ _ _ _ _ _ _ heq r (by omega)

/-- C10 (witness): the theorem applied to `wDraw` (`D001` with the latch
set): memory is untouched and the screen above row 1 keeps its value. -/
theorem draw_touches_only_target_rows_and_vf_witness :
    (stepState (execStep wDraw) wDraw).memory = wDraw.memory
    ∧ (stepState (execStep wDraw) wDraw).PC = 0x202
    ∧ (stepState (execStep wDraw) wDraw).screen 5 = wDraw.screen 5 := by
  have h := draw_touches_only_target_rows_and_vf wDraw (stepState (execStep wDraw) wDraw)
    (by decide) (by decide) (by decide) rfl
  exact ⟨h.1, h.2.2.1, h.2.2.2.2.2.2.2.2.2.2 5 (by decide)⟩

end RC8
